import Mathlib

set_option maxRecDepth 4000

/-!
Shallow embedding of the gulfcoast medical-scheduling application.

The definitions below are translated from the repository's source:

* the client-side formatting helpers `formatPhoneNumber`, `formatDate`,
  `parseDate` and the date branch of `handleChange` from the edit-patient
  page (src/unnamed/part_000);
* the `/api/attorneys` route handlers `POST`, `PUT`, `DELETE`
  (src/src/app/api/attorneys/route.ts);
* the `/api/tasks` route handler `POST` (src/unnamed/part_001).

JavaScript strings are modelled as `List Char`/`String`, JavaScript numbers
produced by `parseInt` as `Option Int` (`none` models `NaN`), and the
MongoDB collections behind Prisma as in-memory lists keyed by id.
-/

namespace Gulfcoast

/-!
### JavaScript string/number primitives

These model the primitive operations the source code uses:
`String.prototype.split`, `parseInt`, `Number.prototype.toString`,
`String.prototype.padStart(k, '0')`, and `replace(/\D/g, '')` (which is
`List.filter Char.isDigit`).
-/

/-- Numeric value of a decimal digit character (`'0'` ↦ 0, …, `'9'` ↦ 9). -/
def charVal (c : Char) : Nat := c.toNat - 48

/-- Value of a list of decimal digit characters read left to right,
exactly as JavaScript's `parseInt` accumulates digits. -/
def digitsVal (l : List Char) : Nat := l.foldl (fun a c => 10 * a + charVal c) 0

/-- Fuelled decimal printer for naturals; with fuel above `n` it produces
the usual decimal digit string of `n` (most significant digit first). -/
def natDigitsAux : Nat → Nat → List Char
  | 0, _ => []
  | fuel + 1, n =>
    if n < 10 then [Nat.digitChar n]
    else natDigitsAux fuel (n / 10) ++ [Nat.digitChar (n % 10)]

/-- Decimal digit string of a natural number, as produced by JavaScript's
`Number.prototype.toString` for a non-negative integer. -/
def natDigits (n : Nat) : List Char := natDigitsAux (n + 1) n

/-- Decimal string of an integer, as produced by JavaScript's number to
string conversion for integral values. -/
def intChars (n : Int) : List Char :=
  if n < 0 then '-' :: natDigits n.natAbs else natDigits n.toNat

/-- Left-pad a character list with `'0'` up to length `k`, as
`String.prototype.padStart(k, '0')` does. -/
def padTo (k : Nat) (l : List Char) : List Char :=
  List.replicate (k - l.length) '0' ++ l

/-- JavaScript `String(n).padStart(2, '0')`. -/
def intPad2 (n : Int) : List Char := padTo 2 (intChars n)

/-- Four-digit zero-padded year field, as `Date.prototype.toISOString`
prints years in the range handled by this application (0 ≤ year ≤ 9999). -/
def intPad4 (n : Int) : List Char := padTo 4 (intChars n)

/-- JavaScript `String.prototype.split(sep)` on character lists: splitting
the empty string yields `[""]`, and every separator occurrence starts a new
segment. -/
def jsSplit (sep : Char) : List Char → List (List Char)
  | [] => [[]]
  | c :: rest =>
    if c = sep then [] :: jsSplit sep rest
    else
      match jsSplit sep rest with
      | [] => [[c]]
      | g :: gs => (c :: g) :: gs

/-- JavaScript `parseInt` restricted to the inputs reachable in this code
base (segments of date strings: a run of leading decimal digits followed by
arbitrary characters). `none` models `NaN`; a string with no leading digit
parses to `NaN`. -/
def jsParseIntChars (l : List Char) : Option Int :=
  let ds := l.takeWhile Char.isDigit
  if ds.isEmpty then none else some ((digitsVal ds : Nat) : Int)

/-- JavaScript `parseInt` applied to a destructured split segment that may
be `undefined` (`parseInt(undefined)` is `NaN`). -/
def jsParseIntSeg (o : Option (List Char)) : Option Int := o.bind jsParseIntChars

/-!
### Basic lemmas about the primitives
-/

theorem charVal_digitChar {n : Nat} (h : n < 10) : charVal (Nat.digitChar n) = n := by
  interval_cases n <;> decide

theorem isDigit_digitChar {n : Nat} (h : n < 10) : (Nat.digitChar n).isDigit = true := by
  interval_cases n <;> decide

theorem natDigitsAux_all_digits :
    ∀ fuel n, n < fuel → ∀ c ∈ natDigitsAux fuel n, c.isDigit = true := by
  intro fuel
  induction fuel with
  | zero => intro n h; omega
  | succ fuel ih =>
    intro n h c hc
    by_cases h10 : n < 10
    · simp only [natDigitsAux, if_pos h10, List.mem_singleton] at hc
      subst hc; exact isDigit_digitChar h10
    · simp only [natDigitsAux, if_neg h10, List.mem_append, List.mem_singleton] at hc
      rcases hc with hc | hc
      · exact ih (n / 10) (by omega) c hc
      · subst hc; exact isDigit_digitChar (by omega)

theorem natDigitsAux_ne_nil :
    ∀ fuel n, n < fuel → natDigitsAux fuel n ≠ [] := by
  intro fuel
  induction fuel with
  | zero => intro n h; omega
  | succ fuel _ =>
    intro n _
    by_cases h10 : n < 10
    · simp [natDigitsAux, if_pos h10]
    · simp [natDigitsAux, if_neg h10]

theorem digitsVal_append (a b : List Char) :
    digitsVal (a ++ b) = b.foldl (fun x c => 10 * x + charVal c) (digitsVal a) := by
  simp [digitsVal, List.foldl_append]

theorem digitsVal_natDigitsAux :
    ∀ fuel n, n < fuel → digitsVal (natDigitsAux fuel n) = n := by
  intro fuel
  induction fuel with
  | zero => intro n h; omega
  | succ fuel ih =>
    intro n h
    by_cases h10 : n < 10
    · simp only [natDigitsAux, if_pos h10]
      simp [digitsVal, charVal_digitChar h10]
    · simp only [natDigitsAux, if_neg h10]
      rw [digitsVal_append]
      simp only [List.foldl_cons, List.foldl_nil]
      rw [ih (n / 10) (by omega), charVal_digitChar (by omega)]
      omega

theorem natDigits_all_digits (n : Nat) : ∀ c ∈ natDigits n, c.isDigit = true :=
  natDigitsAux_all_digits (n + 1) n (Nat.lt_succ_self n)

theorem natDigits_ne_nil (n : Nat) : natDigits n ≠ [] :=
  natDigitsAux_ne_nil (n + 1) n (Nat.lt_succ_self n)

theorem digitsVal_natDigits (n : Nat) : digitsVal (natDigits n) = n :=
  digitsVal_natDigitsAux (n + 1) n (Nat.lt_succ_self n)

theorem digitsVal_zero_pad (k : Nat) (l : List Char) :
    digitsVal (List.replicate k '0' ++ l) = digitsVal l := by
  induction k with
  | zero => simp
  | succ k ih =>
    simpa [digitsVal, List.replicate_succ, charVal] using ih

theorem digitsVal_padTo (k : Nat) (l : List Char) :
    digitsVal (padTo k l) = digitsVal l := digitsVal_zero_pad _ l

theorem padTo_all_digits (k : Nat) (l : List Char) (h : ∀ c ∈ l, c.isDigit = true) :
    ∀ c ∈ padTo k l, c.isDigit = true := by
  intro c hc
  rcases List.mem_append.1 hc with hc | hc
  · rw [List.eq_of_mem_replicate hc]; decide
  · exact h c hc

theorem padTo_ne_nil (k : Nat) (l : List Char) (h : l ≠ []) : padTo k l ≠ [] := by
  intro hcon
  exact h (List.append_eq_nil.1 hcon).2

theorem takeWhile_eq_self {p : Char → Bool} {l : List Char}
    (h : ∀ c ∈ l, p c = true) : l.takeWhile p = l := by
  induction l with
  | nil => rfl
  | cons c rest ih =>
    rw [List.takeWhile_cons, h c (List.mem_cons_self c rest)]
    simp [ih fun x hx => h x (List.mem_cons_of_mem c hx)]

theorem takeWhile_append_of_all {p : Char → Bool} {a : List Char} (b : List Char)
    (h : ∀ c ∈ a, p c = true) : (a ++ b).takeWhile p = a ++ b.takeWhile p := by
  induction a with
  | nil => rfl
  | cons c rest ih =>
    rw [List.cons_append, List.takeWhile_cons, h c (List.mem_cons_self c rest)]
    simp [ih fun x hx => h x (List.mem_cons_of_mem c hx)]

theorem jsParseIntChars_of_digits {l : List Char} (hne : l ≠ [])
    (h : ∀ c ∈ l, c.isDigit = true) :
    jsParseIntChars l = some ((digitsVal l : Nat) : Int) := by
  unfold jsParseIntChars
  rw [takeWhile_eq_self h]
  simp [List.isEmpty_iff, hne]

theorem isDigit_ne_slash {c : Char} (h : c.isDigit = true) : c ≠ '/' := by
  intro hcon; subst hcon; exact absurd h (by decide)

theorem isDigit_ne_dash {c : Char} (h : c.isDigit = true) : c ≠ '-' := by
  intro hcon; subst hcon; exact absurd h (by decide)

theorem not_mem_of_all_digits {sep : Char} {l : List Char}
    (h : ∀ c ∈ l, c.isDigit = true) (hsep : sep.isDigit = false) : sep ∉ l := by
  intro hmem
  rw [h sep hmem] at hsep
  cases hsep

theorem jsSplit_no_sep {sep : Char} {l : List Char} (h : sep ∉ l) :
    jsSplit sep l = [l] := by
  induction l with
  | nil => rfl
  | cons c rest ih =>
    have hc : ¬ c = sep := fun hcon => h (hcon ▸ List.mem_cons_self c rest)
    rw [jsSplit, if_neg hc, ih fun hmem => h (List.mem_cons_of_mem c hmem)]

theorem jsSplit_append {sep : Char} {a : List Char} (b : List Char) (h : sep ∉ a) :
    jsSplit sep (a ++ sep :: b) = a :: jsSplit sep b := by
  induction a with
  | nil =>
    simp [jsSplit]
  | cons c rest ih =>
    have hc : ¬ c = sep := fun hcon => h (hcon ▸ List.mem_cons_self c rest)
    rw [List.cons_append, jsSplit, if_neg hc,
      ih fun hmem => h (List.mem_cons_of_mem c hmem)]

/-!
### formatPhoneNumber (src/unnamed/part_000, lines 132-139)

Translation of:

  const formatPhoneNumber = (value: string) => \x7b
    const numbers = value.replace(/\D/g, '')
    if (numbers.length <= 3) return numbers
    if (numbers.length <= 6) return `(803) 555`-style prefix form
    return `(803) 555-0123`-style full form
  \x7d

`slice(a, b)` is `(drop a).take (b - a)` and `slice(a)` is `drop a`.
-/

def formatPhoneNumber (value : List Char) : List Char :=
  let numbers := value.filter Char.isDigit
  if numbers.length ≤ 3 then numbers
  else if numbers.length ≤ 6 then
    '(' :: numbers.take 3 ++ ')' :: ' ' :: numbers.drop 3
  else
    '(' :: numbers.take 3 ++ ')' :: ' ' :: (numbers.drop 3).take 3
      ++ '-' :: (numbers.drop 6).take 4

theorem filter_isDigit_of_all {l : List Char} (h : ∀ c ∈ l, c.isDigit = true) :
    l.filter Char.isDigit = l := List.filter_eq_self.2 h

/-- Claim C3: for every string of at most 10 digits, `formatPhoneNumber`
produces the `(XXX) XXX-XXXX` display form (truncated for shorter inputs,
with the full shape reached at 7 or more digits), and stripping all
non-digit characters from the formatted output returns exactly the original
digit string. -/
theorem c3_phone_format_roundtrip (s : List Char)
    (hdig : ∀ c ∈ s, c.isDigit = true) (hlen : s.length ≤ 10) :
    (formatPhoneNumber s).filter Char.isDigit = s ∧
    (7 ≤ s.length →
      formatPhoneNumber s =
        '(' :: s.take 3 ++ ')' :: ' ' :: (s.drop 3).take 3
          ++ '-' :: (s.drop 6).take 4) := by
  have hnum : s.filter Char.isDigit = s := filter_isDigit_of_all hdig
  have hsub : ∀ t : List Char, (∀ c ∈ t, c ∈ s) → t.filter Char.isDigit = t := by
    intro t ht
    exact filter_isDigit_of_all fun c hc => hdig c (ht c hc)
  constructor
  · unfold formatPhoneNumber
    simp only [hnum]
    by_cases h3 : s.length ≤ 3
    · rw [if_pos h3]; exact hnum
    · rw [if_neg h3]
      by_cases h6 : s.length ≤ 6
      · rw [if_pos h6]
        have hpar : ('(' : Char).isDigit = false := by decide
        have hcl : (')' : Char).isDigit = false := by decide
        have hsp : (' ' : Char).isDigit = false := by decide
        simp only [List.filter_cons, hpar, hcl, hsp, List.filter_append,
          Bool.false_eq_true, if_false]
        rw [hsub (s.take 3) fun c hc => List.mem_of_mem_take hc,
          hsub (s.drop 3) fun c hc => List.mem_of_mem_drop hc,
          List.take_append_drop]
      · rw [if_neg h6]
        have hpar : ('(' : Char).isDigit = false := by decide
        have hcl : (')' : Char).isDigit = false := by decide
        have hsp : (' ' : Char).isDigit = false := by decide
        have hdash : ('-' : Char).isDigit = false := by decide
        simp only [List.filter_cons, hpar, hcl, hsp, hdash, List.filter_append,
          Bool.false_eq_true, if_false]
        rw [hsub (s.take 3) fun c hc => List.mem_of_mem_take hc,
          hsub ((s.drop 3).take 3)
            fun c hc => List.mem_of_mem_drop (List.mem_of_mem_take hc),
          hsub ((s.drop 6).take 4)
            fun c hc => List.mem_of_mem_drop (List.mem_of_mem_take hc)]
        have hdrop6 : (s.drop 6).take 4 = s.drop 6 :=
          List.take_of_length_le (by simp; omega)
        have hdrop3 : (s.drop 3).take 3 ++ s.drop 6 = s.drop 3 := by
          have := List.take_append_drop 3 (s.drop 3)
          rw [List.drop_drop] at this
          simpa using this
        rw [hdrop6, List.append_assoc, hdrop3, List.take_append_drop]
  · intro h7
    unfold formatPhoneNumber
    simp only [hnum]
    rw [if_neg (by omega), if_neg (by omega)]

/-- Witness for C3 at the concrete digit string `"8035550123"`. -/
theorem c3_phone_format_roundtrip_witness :
    (formatPhoneNumber "8035550123".data).filter Char.isDigit = "8035550123".data ∧
    formatPhoneNumber "8035550123".data = "(803) 555-0123".data := by
  have h := c3_phone_format_roundtrip "8035550123".data (by decide) (by decide)
  exact ⟨h.1, by rw [h.2 (by decide)]; decide⟩

/-!
### The JavaScript Date model

`parseDate` (src/unnamed/part_000, lines 150-181) builds
`new Date(yearNum, monthNum - 1, dayNum)` and returns its `toISOString()`.
The ECMAScript `Date` constructor does not reject out-of-range day numbers:
it normalises them by rolling the excess over into the following month
(`MakeDay`), so `new Date(2024, 1, 30)` is the 1st of March 2024 and
`getTime()` is never `NaN` for the argument ranges this code lets through.
We model the constructed value as a civil (proleptic Gregorian) date.

The model fixes the runtime timezone to UTC, so local midnight coincides
with the instant printed by `toISOString` and read back by the `Date`
constructor inside `formatDate`; for any other fixed offset the two
conversions cancel, so the claims are unaffected.
-/

/-- Civil (proleptic Gregorian) calendar date with a 1-based month. -/
structure CivilDate where
  year : Int
  month : Int
  day : Int
deriving DecidableEq

/-- Gregorian leap-year rule, as implemented by ECMAScript `Date`. -/
def isLeap (y : Int) : Bool := (y % 4 == 0 && y % 100 != 0) || y % 400 == 0

/-- Number of days in a month of the Gregorian calendar. -/
def daysInMonth (y m : Int) : Int :=
  if m = 2 then (if isLeap y then 29 else 28)
  else if m = 4 ∨ m = 6 ∨ m = 9 ∨ m = 11 then 30 else 31

/-- Fuelled day-overflow normalisation: while the day number exceeds the
month length, move to the next month. For the day range `1..31` that
`parseDate` lets through, the excess is at most 3 days, so one step (fuel 4)
always suffices. -/
def normDayAux : Nat → Int → Int → Int → CivilDate
  | 0, y, m, d => ⟨y, m, d⟩
  | fuel + 1, y, m, d =>
    if d > daysInMonth y m then
      if m = 12 then normDayAux fuel (y + 1) 1 (d - daysInMonth y m)
      else normDayAux fuel y (m + 1) (d - daysInMonth y m)
    else ⟨y, m, d⟩

/-- The civil date constructed by `new Date(year, m0, day)` with a 0-based
month argument `m0`, for the argument ranges reachable from `parseDate`
(`day ∈ [1, 31]`). ECMAScript first folds the month into the year with
floor semantics and then rolls excess days forward. -/
def jsMakeDate (year m0 day : Int) : CivilDate :=
  let ym := year * 12 + m0
  normDayAux 4 (ym.fdiv 12) (ym.fmod 12 + 1) day

/-- Character list printed by `Date.prototype.toISOString` for a date held
at UTC midnight: `YYYY-MM-DDT00:00:00.000Z`. -/
def isoChars (c : CivilDate) : List Char :=
  intPad4 c.year ++ ('-' :: (intPad2 c.month ++ ('-' :: (intPad2 c.day
    ++ "T00:00:00.000Z".data))))

/-!
### parseDate (src/unnamed/part_000, lines 150-181)

Translation of:

  const parseDate = (dateString: string) => \x7b
    if (!dateString) return null
    const [month, day, year] = dateString.split('/')
    const monthNum = parseInt(month); ... (NaN check)
    if (monthNum < 1 || monthNum > 12) return null
    if (dayNum < 1 || dayNum > 31) return null
    if (yearNum < 1900 || yearNum > 2100) return null
    const date = new Date(yearNum, monthNum - 1, dayNum)
    if (isNaN(date.getTime())) return null
    return date.toISOString()
  \x7d

The `isNaN(date.getTime())` guard is omitted because for the in-range
finite arguments that reach the constructor, `getTime()` is never `NaN`:
the guard can never fire. The `!dateString` test is the empty-string check.
-/

def parseDate (dateString : String) : Option String :=
  if dateString.data = [] then none
  else
    let parts := jsSplit '/' dateString.data
    match jsParseIntSeg parts[0]?, jsParseIntSeg parts[1]?, jsParseIntSeg parts[2]? with
    | some monthNum, some dayNum, some yearNum =>
      if monthNum < 1 ∨ monthNum > 12 then none
      else if dayNum < 1 ∨ dayNum > 31 then none
      else if yearNum < 1900 ∨ yearNum > 2100 then none
      else some (String.mk (isoChars (jsMakeDate yearNum (monthNum - 1) dayNum)))
    | _, _, _ => none

/-!
### formatDate (src/unnamed/part_000, lines 141-148)

Translation of:

  const formatDate = (dateString: string | null) => \x7b
    if (!dateString) return ''
    const date = new Date(dateString)
    const month = (date.getMonth() + 1).toString().padStart(2, '0')
    const day = date.getDate().toString().padStart(2, '0')
    const year = date.getFullYear()
    return month/day/year joined with slashes
  \x7d

`new Date(dateString)` is modelled for the ECMAScript date-time string
format `YYYY-MM-DDTHH:MM:SS.sssZ` that `toISOString` produces — the only
shape flowing into `formatDate` in the claims under study. The model stores
a 1-based month, so `getMonth() + 1` is `month` directly. An unparseable
string yields an invalid date whose components print as `NaN`.
-/

/-- ECMAScript `new Date(s)` on an ISO `YYYY-MM-DD...` string: the year,
month and day fields are the three dash-separated leading number runs. -/
def jsParseDateString (s : List Char) : Option CivilDate :=
  match jsSplit '-' s with
  | [ys, ms, ds] =>
    match jsParseIntChars ys, jsParseIntChars ms, jsParseIntChars ds with
    | some y, some m, some d => some ⟨y, m, d⟩
    | _, _, _ => none
  | _ => none

def formatDate (dateString : String) : String :=
  if dateString.data = [] then ""
  else
    match jsParseDateString dateString.data with
    | some c =>
      String.mk (intPad2 c.month ++ ('/' :: (intPad2 c.day ++ ('/' :: intChars c.year))))
    | none => "NaN/NaN/NaN"

/-!
### Lemmas for the parse/format round trip
-/

theorem intChars_ofNat (k : Nat) : intChars (k : Int) = natDigits k := by
  simp [intChars]

theorem intPad2_ofNat (k : Nat) : intPad2 (k : Int) = padTo 2 (natDigits k) := by
  simp [intPad2, intChars_ofNat]

theorem intPad4_ofNat (k : Nat) : intPad4 (k : Int) = padTo 4 (natDigits k) := by
  simp [intPad4, intChars_ofNat]

theorem intPad2_ofNat_digits (k : Nat) : ∀ c ∈ intPad2 (k : Int), c.isDigit = true := by
  rw [intPad2_ofNat]
  exact padTo_all_digits 2 _ (natDigits_all_digits k)

theorem intPad4_ofNat_digits (k : Nat) : ∀ c ∈ intPad4 (k : Int), c.isDigit = true := by
  rw [intPad4_ofNat]
  exact padTo_all_digits 4 _ (natDigits_all_digits k)

theorem intPad2_ofNat_ne_nil (k : Nat) : intPad2 (k : Int) ≠ [] := by
  rw [intPad2_ofNat]
  exact padTo_ne_nil 2 _ (natDigits_ne_nil k)

theorem intPad4_ofNat_ne_nil (k : Nat) : intPad4 (k : Int) ≠ [] := by
  rw [intPad4_ofNat]
  exact padTo_ne_nil 4 _ (natDigits_ne_nil k)

theorem jsParseIntChars_intPad2 (k : Nat) :
    jsParseIntChars (intPad2 (k : Int)) = some (k : Int) := by
  rw [jsParseIntChars_of_digits (intPad2_ofNat_ne_nil k) (intPad2_ofNat_digits k),
    intPad2_ofNat, digitsVal_padTo, digitsVal_natDigits]

theorem jsParseIntChars_intPad4 (k : Nat) :
    jsParseIntChars (intPad4 (k : Int)) = some (k : Int) := by
  rw [jsParseIntChars_of_digits (intPad4_ofNat_ne_nil k) (intPad4_ofNat_digits k),
    intPad4_ofNat, digitsVal_padTo, digitsVal_natDigits]

theorem jsParseIntChars_natDigits (k : Nat) :
    jsParseIntChars (natDigits k) = some (k : Int) := by
  rw [jsParseIntChars_of_digits (natDigits_ne_nil k) (natDigits_all_digits k),
    digitsVal_natDigits]

theorem jsParseIntChars_append_stop {a b : List Char} (hne : a ≠ [])
    (h : ∀ c ∈ a, c.isDigit = true) (hb : b.takeWhile Char.isDigit = []) :
    jsParseIntChars (a ++ b) = some ((digitsVal a : Nat) : Int) := by
  unfold jsParseIntChars
  rw [takeWhile_append_of_all b h, hb, List.append_nil]
  simp [List.isEmpty_iff, hne]

/-- Month folding performed by the ECMAScript `Date` constructor is the
identity on in-range month arguments. -/
theorem jsMakeDate_of_valid (y m d : Int) (hm1 : 1 ≤ m) (hm2 : m ≤ 12)
    (hd2 : d ≤ daysInMonth y m) :
    jsMakeDate y (m - 1) d = ⟨y, m, d⟩ := by
  have h1 : (y * 12 + (m - 1)).fdiv 12 = y := by
    rw [Int.fdiv_eq_ediv _ (by norm_num)]; omega
  have h2 : (y * 12 + (m - 1)).fmod 12 + 1 = m := by
    rw [Int.fmod_eq_emod _ (by norm_num)]; omega
  show normDayAux 4 ((y * 12 + (m - 1)).fdiv 12) ((y * 12 + (m - 1)).fmod 12 + 1) d
      = ⟨y, m, d⟩
  rw [h1, h2]
  show (if d > daysInMonth y m then _ else CivilDate.mk y m d) = ⟨y, m, d⟩
  rw [if_neg (not_lt.2 hd2)]

/-- Canonical `MM/DD/YYYY` display string for a date: two-digit month,
two-digit day, decimal year (four digits throughout the year range
1900-2100 of the claim). -/
def canonChars (m d y : Nat) : List Char :=
  padTo 2 (natDigits m) ++ ('/' :: (padTo 2 (natDigits d) ++ ('/' :: natDigits y)))

theorem slash_isDigit : ('/' : Char).isDigit = false := by decide

theorem dash_isDigit : ('-' : Char).isDigit = false := by decide

/-- Claim C2: for every calendrically valid date with month in `[1, 12]`,
day valid for that month and year, and year in `[1900, 2100]`, parsing the
canonical `MM/DD/YYYY` string with `parseDate` yields an ISO string, and
formatting that ISO string with `formatDate` returns the original
`MM/DD/YYYY` string. -/
theorem c2_parse_format_roundtrip (m d y : Nat)
    (hm1 : 1 ≤ m) (hm2 : m ≤ 12) (hd1 : 1 ≤ d)
    (hd2 : (d : Int) ≤ daysInMonth (y : Int) (m : Int))
    (hy1 : 1900 ≤ y) (hy2 : y ≤ 2100) :
    ∃ iso : String,
      parseDate (String.mk (canonChars m d y)) = some iso ∧
      formatDate iso = String.mk (canonChars m d y) := by
  have hd31 : d ≤ 31 := by
    have : daysInMonth (y : Int) (m : Int) ≤ 31 := by
      unfold daysInMonth
      split_ifs <;> omega
    omega
  have hpm := intPad2_ofNat_digits m
  have hpd := intPad2_ofNat_digits d
  have hpy4 := intPad4_ofNat_digits y
  have hny := natDigits_all_digits y
  rw [intPad2_ofNat] at hpm hpd
  rw [intPad4_ofNat] at hpy4
  refine ⟨String.mk (isoChars ⟨(y : Int), (m : Int), (d : Int)⟩), ?_, ?_⟩
  · unfold parseDate
    rw [if_neg (by
      intro hcon
      exact intPad2_ofNat_ne_nil m (by
        rw [intPad2_ofNat]
        exact (List.append_eq_nil.1 hcon).1))]
    show (match
        jsParseIntSeg (jsSplit '/' (canonChars m d y))[0]?,
        jsParseIntSeg (jsSplit '/' (canonChars m d y))[1]?,
        jsParseIntSeg (jsSplit '/' (canonChars m d y))[2]? with
      | some monthNum, some dayNum, some yearNum =>
        if monthNum < 1 ∨ monthNum > 12 then none
        else if dayNum < 1 ∨ dayNum > 31 then none
        else if yearNum < 1900 ∨ yearNum > 2100 then none
        else some (String.mk (isoChars (jsMakeDate yearNum (monthNum - 1) dayNum)))
      | _, _, _ => none) = _
    have hsplit : jsSplit '/' (canonChars m d y) =
        [padTo 2 (natDigits m), padTo 2 (natDigits d), natDigits y] := by
      unfold canonChars
      rw [jsSplit_append _ (not_mem_of_all_digits hpm slash_isDigit),
        jsSplit_append _ (not_mem_of_all_digits hpd slash_isDigit),
        jsSplit_no_sep (not_mem_of_all_digits hny slash_isDigit)]
    rw [hsplit]
    show (match
        jsParseIntChars (padTo 2 (natDigits m)),
        jsParseIntChars (padTo 2 (natDigits d)),
        jsParseIntChars (natDigits y) with
      | some monthNum, some dayNum, some yearNum =>
        if monthNum < 1 ∨ monthNum > 12 then none
        else if dayNum < 1 ∨ dayNum > 31 then none
        else if yearNum < 1900 ∨ yearNum > 2100 then none
        else some (String.mk (isoChars (jsMakeDate yearNum (monthNum - 1) dayNum)))
      | _, _, _ => none) = _
    rw [← intPad2_ofNat m, ← intPad2_ofNat d, jsParseIntChars_intPad2,
      jsParseIntChars_intPad2, jsParseIntChars_natDigits]
    show (if (m : Int) < 1 ∨ (m : Int) > 12 then none
      else if (d : Int) < 1 ∨ (d : Int) > 31 then none
      else if (y : Int) < 1900 ∨ (y : Int) > 2100 then none
      else some (String.mk (isoChars (jsMakeDate (y : Int) ((m : Int) - 1) (d : Int)))))
      = _
    rw [if_neg (by omega), if_neg (by omega), if_neg (by omega),
      jsMakeDate_of_valid _ _ _ (by exact_mod_cast hm1) (by exact_mod_cast hm2) hd2]
  · unfold formatDate
    rw [if_neg (by
      intro hcon
      exact intPad4_ofNat_ne_nil y (by
        rw [intPad4_ofNat]
        exact (List.append_eq_nil.1 hcon).1))]
    have htail : ('-' : Char) ∉ intPad2 (d : Int) ++ "T00:00:00.000Z".data := by
      intro hc
      rcases List.mem_append.1 hc with hc | hc
      · exact absurd (intPad2_ofNat_digits d _ hc) (by decide)
      · revert hc; decide
    have hiso : jsParseDateString (isoChars ⟨(y : Int), (m : Int), (d : Int)⟩) =
        some ⟨(y : Int), (m : Int), (d : Int)⟩ := by
      unfold jsParseDateString isoChars
      dsimp only
      rw [jsSplit_append _ (by
          rw [intPad4_ofNat]
          exact not_mem_of_all_digits hpy4 dash_isDigit),
        jsSplit_append _ (by
          rw [intPad2_ofNat]
          exact not_mem_of_all_digits hpm dash_isDigit),
        jsSplit_no_sep htail]
      show (match jsParseIntChars (intPad4 (y : Int)),
          jsParseIntChars (intPad2 (m : Int)),
          jsParseIntChars (intPad2 (d : Int) ++ "T00:00:00.000Z".data) with
        | some y1, some m1, some d1 => some (CivilDate.mk y1 m1 d1)
        | _, _, _ => none) = _
      rw [jsParseIntChars_intPad4, jsParseIntChars_intPad2,
        jsParseIntChars_append_stop (intPad2_ofNat_ne_nil d)
          (intPad2_ofNat_digits d) (by decide)]
      rw [intPad2_ofNat, digitsVal_padTo, digitsVal_natDigits]
    show (match jsParseDateString (isoChars ⟨(y : Int), (m : Int), (d : Int)⟩) with
      | some c =>
        String.mk (intPad2 c.month ++ ('/' :: (intPad2 c.day ++ ('/' :: intChars c.year))))
      | none => "NaN/NaN/NaN") = _
    rw [hiso]
    show String.mk (intPad2 (m : Int) ++ ('/' :: (intPad2 (d : Int)
      ++ ('/' :: intChars (y : Int))))) = _
    rw [intPad2_ofNat, intPad2_ofNat, intChars_ofNat]
    rfl

/-- Witness for C2 at the concrete valid date `02/05/1999`. -/
theorem c2_parse_format_roundtrip_witness :
    ∃ iso : String,
      parseDate (String.mk (canonChars 2 5 1999)) = some iso ∧
      formatDate iso = String.mk (canonChars 2 5 1999) :=
  c2_parse_format_roundtrip 2 5 1999 (by decide) (by decide) (by decide)
    (by decide) (by decide) (by decide)

/-- Claim C1 failing input: `parseDate "02/30/2024"` does not return
`null`. The range checks pass (30 ≤ 31), the `Date` constructor rolls
February 30th of 2024 over to March 1st, and the `isNaN` guard cannot
fire, so the parser returns the ISO string of 2024-03-01 instead of
rejecting the calendrically invalid date. Out-of-range components, by
contrast, are rejected as the claim states. -/
theorem c1_parseDate_accepts_feb_30 :
    parseDate "02/30/2024" = some "2024-03-01T00:00:00.000Z" ∧
    parseDate "13/01/2020" = none ∧
    parseDate "00/15/2020" = none := by
  refine ⟨?_, ?_, ?_⟩ <;> decide

/-!
### The /api/attorneys route (src/src/app/api/attorneys/route.ts)

The MongoDB collections behind Prisma are modelled as in-memory lists; a
store-generated opaque id is drawn from a counter. Every handler returns a
status code plus the new database state, and a Prisma `$transaction` is a
single pure function from database to database, which is atomic by
construction (all-or-nothing is the semantics Prisma guarantees for the
callback form used here).
-/

namespace AttorneyApi

/-- Row of the `User` collection. -/
structure UserRow where
  id : String
  email : String
  name : String
  role : String
  password : String
deriving DecidableEq

/-- Row of the `Attorney` collection, with the fields the route handlers
write (`barNumber` and `firm` are created as `null`). -/
structure AttorneyRow where
  id : String
  userId : String
  phone : Option String
  faxNumber : Option String
  address : Option String
  city : Option String
  state : Option String
  zipcode : Option String
  notes : Option String
  barNumber : Option String
  firm : Option String
deriving DecidableEq

/-- Row of the `CaseManager` collection, keyed to its attorney by
`attorneyId` (prisma/schema.prisma, CaseManager model). -/
structure CaseManagerRow where
  id : String
  attorneyId : String
  name : String
  email : String
  phone : String
  phoneExt : Option String
  faxNumber : Option String
deriving DecidableEq

/-- The persistent store. -/
structure DB where
  users : List UserRow
  attorneys : List AttorneyRow
  caseManagers : List CaseManagerRow
  nextId : Nat
deriving DecidableEq

/-- Store-generated opaque identifier. -/
def genId (n : Nat) : String := String.mk (natDigits n)

/-- HTTP response: a status code and the JSON `message` field (entity
payloads are tracked separately where a claim needs them). -/
structure ApiResponse where
  status : Nat
  message : String
deriving DecidableEq

/-- Case-manager element of the POST body. -/
structure CMInput where
  name : String
  email : String
  phone : String
  phoneExt : Option String
  faxNumber : Option String
deriving DecidableEq

/-- Body of `POST /api/attorneys`. A JavaScript-falsy missing string field
is modelled as `""` (for `name`, `email`, `password`) or `none`; a missing
`hasLogin` is the falsy `false`; a missing `caseManagers` is `[]`. -/
structure PostBody where
  name : String
  email : String
  password : String
  hasLogin : Bool
  phone : Option String
  faxNumber : Option String
  address : Option String
  city : Option String
  state : Option String
  zipcode : Option String
  notes : Option String
  caseManagers : List CMInput
deriving DecidableEq

/-- Result of `POST /api/attorneys`: either an error response or the
created attorney together with the nested `user` selection
(`\x7bname, email\x7d`) and the included case managers. -/
inductive PostResult
  | err (response : ApiResponse)
  | ok (attorney : AttorneyRow) (userName : String) (userEmail : String)
      (caseManagers : List CaseManagerRow)
deriving DecidableEq

/-- POST /api/attorneys (route.ts lines 87-212): validates name/email,
requires a password when `hasLogin` is set, pre-checks email uniqueness,
then in one transaction creates the User (role `ATTORNEY`, password `""`
unless login access was requested), the Attorney profile linked by
`userId`, and any case managers whose name, email and phone are all
present. The response payload is the attorney including the nested user
selection and the case managers present at attorney-creation time (the
case managers are inserted after that query, so the included list is
empty). `hash` models `bcrypt.hash(password, 10)`. -/
def postAttorneys (hash : String → String) (db : DB) (body : PostBody) :
    PostResult × DB :=
  if body.name = "" ∨ body.email = "" then
    (.err ⟨400, "Name and email are required"⟩, db)
  else if body.hasLogin = true ∧ body.password = "" then
    (.err ⟨400, "Password is required when login access is enabled"⟩, db)
  else if (db.users.find? fun u => u.email == body.email).isSome then
    (.err ⟨400, "Email already registered"⟩, db)
  else
    let uid := genId db.nextId
    let user : UserRow :=
      ⟨uid, body.email, body.name, "ATTORNEY",
        if body.hasLogin = true ∧ body.password ≠ "" then hash body.password else ""⟩
    let aid := genId (db.nextId + 1)
    let att : AttorneyRow :=
      ⟨aid, uid, body.phone, body.faxNumber, body.address, body.city,
        body.state, body.zipcode, body.notes, none, none⟩
    let validCMs := body.caseManagers.filter
      fun mgr => mgr.name != "" && mgr.email != "" && mgr.phone != ""
    let cmRows := validCMs.enum.map
      fun p => CaseManagerRow.mk (genId (db.nextId + 2 + p.1)) aid
        p.2.name p.2.email p.2.phone p.2.phoneExt p.2.faxNumber
    (.ok att body.name body.email [],
      ⟨user :: db.users, att :: db.attorneys, cmRows ++ db.caseManagers,
        db.nextId + 2 + cmRows.length⟩)

/-- Kinds of value thrown inside the POST handler's try block, as
discriminated by its catch block: a `PrismaClientKnownRequestError`
carrying a Prisma error code and message, any other JavaScript `Error`,
or a non-`Error` throwable. -/
inductive CreateError
  | known (code : String) (message : String)
  | jsError (message : String)
  | other
deriving DecidableEq

/-- Fixed conflict message the handler substitutes for a `P2002`
unique-constraint violation. -/
def uniqueViolationMessage : String :=
  "A unique constraint violation occurred. The email may already be registered."

/-- Catch block of POST /api/attorneys (route.ts lines 213-233): `P2002`
becomes a 400 with a fixed field-specific message; any other known Prisma
error becomes a 400 whose message embeds the raw Prisma message; any other
`Error` becomes a 500 carrying that error's own message; a non-`Error`
throwable becomes a 500 with a fixed fallback text. -/
def handleCreateError : CreateError → ApiResponse
  | .known code msg =>
    if code = "P2002" then ⟨400, uniqueViolationMessage⟩
    else ⟨400, "Database error: " ++ msg⟩
  | .jsError msg => ⟨500, msg⟩
  | .other => ⟨500, "Error creating attorney"⟩

/-- Payload verified out of the session JWT. -/
structure TokenPayload where
  role : String
  userId : Option String
deriving DecidableEq

/-- State of the `token` cookie on a DELETE request: absent, present but
failing verification (jwtVerify throws), or verified with a payload. -/
inductive CookieToken
  | missing
  | invalid
  | valid (payload : TokenPayload)
deriving DecidableEq

/-- Body of `PUT /api/attorneys`: the update fields destructured as
`\x7bpassword, ...attorneyData\x7d`. A field wrapped in `some` is present in
the JSON body; `password = ""` models an absent or falsy password. -/
structure PutBody where
  password : String
  phone : Option (Option String)
  faxNumber : Option (Option String)
  address : Option (Option String)
  city : Option (Option String)
  state : Option (Option String)
  zipcode : Option (Option String)
  notes : Option (Option String)
deriving DecidableEq

/-- Request to `PUT /api/attorneys?id=...`: the query id, the bearer token
taken from the `Authorization` header (second space-separated word), and
the JSON body. -/
structure PutRequest where
  id : Option String
  token : Option String
  body : PutBody
deriving DecidableEq

/-- The transaction body of PUT /api/attorneys (route.ts lines 259-276):
update the attorney profile with the provided fields (absent fields keep
their prior values), and if a password was provided, set the linked user's
password to its bcrypt hash. `none` models the Prisma error thrown when no
attorney has the given id. -/
def updateAttorneyTx (hash : String → String) (db : DB) (id : String)
    (body : PutBody) : Option (AttorneyRow × DB) :=
  match db.attorneys.find? fun a => a.id == id with
  | none => none
  | some old =>
    let updated : AttorneyRow :=
      { old with
        phone := body.phone.getD old.phone
        faxNumber := body.faxNumber.getD old.faxNumber
        address := body.address.getD old.address
        city := body.city.getD old.city
        state := body.state.getD old.state
        zipcode := body.zipcode.getD old.zipcode
        notes := body.notes.getD old.notes }
    let attorneys := db.attorneys.map fun a => if a.id == id then updated else a
    let users :=
      if body.password ≠ "" then
        db.users.map fun u =>
          if u.id == updated.userId then { u with password := hash body.password }
          else u
      else db.users
    some (updated, ⟨users, attorneys, db.caseManagers, db.nextId⟩)

/-- The value `decoded.role` reads inside PUT /api/attorneys (route.ts
line 250-251). The handler calls jose's async `jwtVerify` WITHOUT awaiting
it, so `decoded` is a pending promise object, and reading `.role` off it
yields `undefined` — for every request, whatever the token contains. -/
def putDecodedRole : Option String := none

/-- PUT /api/attorneys (route.ts lines 237-286): requires an id (else 400)
and a bearer token (else 401), then compares `decoded.role` with
`'ADMIN'`. Because `decoded` is an unawaited promise, the comparison fails
for every request and the handler answers 401 without reading the body or
touching the store; the transaction below the check is dead code. -/
def putAttorneys (hash : String → String) (db : DB) (req : PutRequest) :
    ApiResponse × DB :=
  match req.id with
  | none => (⟨400, "Attorney ID is required"⟩, db)
  | some id =>
    match req.token with
    | none => (⟨401, "Unauthorized"⟩, db)
    | some _ =>
      if putDecodedRole ≠ some "ADMIN" then (⟨401, "Unauthorized"⟩, db)
      else
        match updateAttorneyTx hash db id req.body with
        | some (_, db1) => (⟨200, "ok"⟩, db1)
        | none => (⟨500, "Failed to update attorney"⟩, db)

/-- Request to `DELETE /api/attorneys?id=...`: the query id and the state
of the `token` cookie. -/
structure DeleteRequest where
  id : Option String
  token : CookieToken
deriving DecidableEq

/-- JavaScript `String.prototype.toUpperCase` restricted to ASCII role
strings. -/
def jsToUpper (s : String) : String := String.mk (s.data.map Char.toUpper)

/-- DELETE /api/attorneys (route.ts lines 289-367): requires an id (else
400) and a `token` cookie (else 401); a token that fails verification
throws, landing in the catch block (500). The attorney is looked up (404
if absent); the action is allowed only to ADMIN callers
(case-insensitively) or to the attorney's own user, otherwise 403. The
transaction then deletes the attorney's case managers, the attorney, and
the linked user; if the linked user row is missing the user deletion
throws and the transaction rolls back with nothing changed (500). -/
def deleteAttorneys (db : DB) (req : DeleteRequest) : ApiResponse × DB :=
  match req.id with
  | none => (⟨400, "Attorney ID is required"⟩, db)
  | some id =>
    match req.token with
    | .missing => (⟨401, "Unauthorized"⟩, db)
    | .invalid => (⟨500, "Failed to delete attorney"⟩, db)
    | .valid payload =>
      match db.attorneys.find? fun a => a.id == id with
      | none => (⟨404, "Attorney not found"⟩, db)
      | some attorney =>
        let isAdmin := jsToUpper payload.role == "ADMIN"
        let isOwnProfile := payload.userId == some attorney.userId
        if ¬ (isAdmin || isOwnProfile) = true then (⟨403, "Unauthorized"⟩, db)
        else
          if (db.users.find? fun u => u.id == attorney.userId).isSome then
            (⟨200, "Attorney deleted successfully"⟩,
              ⟨db.users.filter fun u => u.id != attorney.userId,
                db.attorneys.filter fun a => a.id != id,
                db.caseManagers.filter fun cm => cm.attorneyId != id,
                db.nextId⟩)
          else (⟨500, "Failed to delete attorney"⟩, db)

/-!
### Concrete sample data used by witnesses and counterexamples
-/

/-- A sample user owning the sample attorney profile. -/
def sampleUser : UserRow := ⟨"u1", "law@example.com", "Jane Lawyer", "ATTORNEY", "stored-hash"⟩

/-- A sample attorney profile owned by `sampleUser`. -/
def sampleAttorney : AttorneyRow :=
  ⟨"at1", "u1", some "8035550123", none, none, none, none, none, none, none, none⟩

/-- A sample case manager of `sampleAttorney`. -/
def sampleCM : CaseManagerRow :=
  ⟨"cm1", "at1", "Sam Manager", "sam@example.com", "8035550199", none, none⟩

/-- A sample database with one user, one attorney and one case manager. -/
def sampleDB : DB := ⟨[sampleUser], [sampleAttorney], [sampleCM], 7⟩

/-!
### Claims C4, C5, C6 about PUT and DELETE
-/

/-- Counterexample to claim C4: a PUT request carrying a credential (here
a valid ADMIN bearer token) is answered 401 and mutates nothing, where the
claim says an ADMIN credential proceeds and a non-owner non-admin
credential gets 403. The handler never reads the verified role: it does
not await `jwtVerify`, so its `decoded.role !== 'ADMIN'` test reads
`undefined` off a promise and fails for every request. -/
theorem c4_put_admin_receives_401 :
    putAttorneys (fun s => s) sampleDB
      ⟨some "at1", some "admin-bearer-jwt",
        ⟨"", none, none, none, none, none, none, none⟩⟩ =
      (⟨401, "Unauthorized"⟩, sampleDB) := rfl

/-- Claim C4 as amended: DELETE behaves as the claim states (no credential
401; valid non-owner, non-admin credential 403; ADMIN or owner proceeds),
but PUT answers 401 both with no credential and with any credential at
all, because its role check reads an unawaited promise and can never
pass. -/
theorem c4_amended_auth_behavior (hash : String → String) (db : DB)
    (id : String) (tok : String) (body : PutBody) (payload : TokenPayload) :
    putAttorneys hash db ⟨some id, none, body⟩ = (⟨401, "Unauthorized"⟩, db) ∧
    putAttorneys hash db ⟨some id, some tok, body⟩ = (⟨401, "Unauthorized"⟩, db) ∧
    deleteAttorneys db ⟨some id, .missing⟩ = (⟨401, "Unauthorized"⟩, db) ∧
    ∀ att, db.attorneys.find? (fun a => a.id == id) = some att →
      (jsToUpper payload.role ≠ "ADMIN" → payload.userId ≠ some att.userId →
        deleteAttorneys db ⟨some id, .valid payload⟩ = (⟨403, "Unauthorized"⟩, db)) ∧
      ((jsToUpper payload.role = "ADMIN" ∨ payload.userId = some att.userId) →
        (db.users.find? fun u => u.id == att.userId).isSome = true →
        (deleteAttorneys db ⟨some id, .valid payload⟩).1.status = 200) := by
  refine ⟨rfl, rfl, rfl, ?_⟩
  intro att hfind
  constructor
  · intro hrole hown
    have h1 : (jsToUpper payload.role == "ADMIN") = false :=
      beq_eq_false_iff_ne.2 hrole
    have h2 : (payload.userId == some att.userId) = false :=
      beq_eq_false_iff_ne.2 hown
    unfold deleteAttorneys
    simp only [hfind, h1, h2]
    rfl
  · intro hor huser
    have h1 : (jsToUpper payload.role == "ADMIN") = true ∨
        (payload.userId == some att.userId) = true := by
      rcases hor with h | h
      · exact Or.inl (beq_iff_eq.2 h)
      · exact Or.inr (beq_iff_eq.2 h)
    unfold deleteAttorneys
    simp only [hfind]
    rw [if_neg (by
      rcases h1 with h | h <;> simp [h])]
    rw [if_pos huser]

/-- Witness for the amended C4: on the sample database, the concrete 401,
403 and 200 outcomes, obtained by applying the amended theorem with a
non-admin non-owner payload and with an admin payload. -/
theorem c4_amended_auth_behavior_witness :
    putAttorneys (fun s => s) sampleDB
        ⟨some "at1", none, ⟨"", none, none, none, none, none, none, none⟩⟩ =
      (⟨401, "Unauthorized"⟩, sampleDB) ∧
    deleteAttorneys sampleDB ⟨some "at1", .valid ⟨"staff", some "u9"⟩⟩ =
      (⟨403, "Unauthorized"⟩, sampleDB) ∧
    (deleteAttorneys sampleDB ⟨some "at1", .valid ⟨"admin", none⟩⟩).1.status = 200 := by
  have hstaff := c4_amended_auth_behavior (fun s => s) sampleDB "at1" "t"
    ⟨"", none, none, none, none, none, none, none⟩ ⟨"staff", some "u9"⟩
  have hadmin := c4_amended_auth_behavior (fun s => s) sampleDB "at1" "t"
    ⟨"", none, none, none, none, none, none, none⟩ ⟨"admin", none⟩
  refine ⟨hstaff.1, ?_, ?_⟩
  · exact ((hstaff.2.2.2 sampleAttorney (by decide)).1 (by decide) (by decide))
  · exact ((hadmin.2.2.2 sampleAttorney (by decide)).2 (Or.inl (by decide)) (by decide))

/-- Claim C5: a successful DELETE (status 200) leaves no attorney row with
the deleted id, no case-manager row referencing it, and no user row with
the deleted attorney's userId; and the operation is all-or-nothing: any
non-200 outcome leaves the database exactly as it was. -/
theorem c5_delete_cascade_atomic (db : DB) (id : String) (tok : CookieToken) :
    ((deleteAttorneys db ⟨some id, tok⟩).1.status = 200 →
      (∀ a ∈ (deleteAttorneys db ⟨some id, tok⟩).2.attorneys, a.id ≠ id) ∧
      (∀ cm ∈ (deleteAttorneys db ⟨some id, tok⟩).2.caseManagers, cm.attorneyId ≠ id) ∧
      ∃ att, db.attorneys.find? (fun a => a.id == id) = some att ∧
        ∀ u ∈ (deleteAttorneys db ⟨some id, tok⟩).2.users, u.id ≠ att.userId) ∧
    ((deleteAttorneys db ⟨some id, tok⟩).1.status ≠ 200 →
      (deleteAttorneys db ⟨some id, tok⟩).2 = db) := by
  cases tok with
  | missing => exact ⟨fun h => by simp [deleteAttorneys] at h, fun _ => rfl⟩
  | invalid => exact ⟨fun h => by simp [deleteAttorneys] at h, fun _ => rfl⟩
  | valid payload =>
    cases hfind : db.attorneys.find? (fun a => a.id == id) with
    | none =>
      refine ⟨fun h => ?_, fun _ => ?_⟩ <;> simp [deleteAttorneys, hfind] at *
    | some att =>
      simp only [deleteAttorneys, hfind]
      by_cases hauth :
          (¬ (jsToUpper payload.role == "ADMIN" ||
            payload.userId == some att.userId) = true)
      · rw [if_pos hauth]
        exact ⟨fun h => by simp at h, fun _ => rfl⟩
      · rw [if_neg hauth]
        by_cases huser : (db.users.find? fun u => u.id == att.userId).isSome = true
        · rw [if_pos huser]
          refine ⟨fun _ => ⟨?_, ?_, att, rfl, ?_⟩, fun h => absurd rfl h⟩
          · intro a ha
            have := (List.mem_filter.1 ha).2
            simpa using this
          · intro cm hcm
            have := (List.mem_filter.1 hcm).2
            simpa using this
          · intro u hu
            have := (List.mem_filter.1 hu).2
            simpa using this
        · rw [if_neg huser]
          exact ⟨fun h => by simp at h, fun _ => rfl⟩

/-- Witness for C5: deleting the sample attorney as ADMIN succeeds and the
cascade facts hold on the resulting database. -/
theorem c5_delete_cascade_atomic_witness :
    (∀ a ∈ (deleteAttorneys sampleDB ⟨some "at1", .valid ⟨"ADMIN", none⟩⟩).2.attorneys,
      a.id ≠ "at1") ∧
    (∀ cm ∈ (deleteAttorneys sampleDB ⟨some "at1", .valid ⟨"ADMIN", none⟩⟩).2.caseManagers,
      cm.attorneyId ≠ "at1") ∧
    ∃ att, sampleDB.attorneys.find? (fun a => a.id == "at1") = some att ∧
      ∀ u ∈ (deleteAttorneys sampleDB ⟨some "at1", .valid ⟨"ADMIN", none⟩⟩).2.users,
        u.id ≠ att.userId :=
  (c5_delete_cascade_atomic sampleDB "at1" (.valid ⟨"ADMIN", none⟩)).1 (by decide)

/-- Claim C6 failing input: a PUT carrying a password field together with
a valid ADMIN credential. The claim (and the transaction written at lines
259-276 of the route) says the linked user's password hash is updated; but
the handler never awaits `jwtVerify`, so `decoded.role` is `undefined`,
the ADMIN check fails, and every such request is answered 401 with the
database — including the stored password hash — left untouched. The
update transaction is unreachable. -/
theorem c6_put_password_never_updates :
    putAttorneys (fun s => String.append "bcrypt10$" s) sampleDB
      ⟨some "at1", some "valid-admin-bearer-jwt",
        ⟨"newSecret", none, none, some (some "5 Main St"), none, none, none, none⟩⟩ =
      (⟨401, "Unauthorized"⟩, sampleDB) := rfl

/-!
### Claims C7 and C8 about POST
-/

/-- Counterexample to claim C7: the catch block of POST /api/attorneys
does not return a generic 500 without internal detail — it copies the
thrown error's own message into the 500 body — and a known storage error
other than P2002 is answered 400 with the raw storage message embedded. -/
theorem c7_error_detail_leaked :
    handleCreateError (.jsError "connect ECONNREFUSED 127.0.0.1:27017") =
      ⟨500, "connect ECONNREFUSED 127.0.0.1:27017"⟩ ∧
    handleCreateError (.known "P2010" "Raw query failed, code 11000") =
      ⟨400, "Database error: Raw query failed, code 11000"⟩ ∧
    handleCreateError (.jsError "a") ≠ handleCreateError (.jsError "b") := by
  refine ⟨rfl, rfl, ?_⟩
  decide

/-- Claim C7 as amended: a P2002 unique-constraint violation is translated
to a 400 conflict whose field-specific message is a fixed constant,
independent of the raw storage text; every other known storage error is a
400 that embeds the raw storage message; an unexpected `Error` is a 500
carrying that error's own message (not a generic body); a non-`Error`
throwable is a 500 with a fixed fallback text. -/
theorem c7_amended_error_translation (code msg msg2 : String) :
    (handleCreateError (.known "P2002" msg) = ⟨400, uniqueViolationMessage⟩ ∧
      handleCreateError (.known "P2002" msg) = handleCreateError (.known "P2002" msg2)) ∧
    (code ≠ "P2002" →
      (handleCreateError (.known code msg)).status = 400 ∧
      List.IsSuffix msg.data (handleCreateError (.known code msg)).message.data) ∧
    handleCreateError (.jsError msg) = ⟨500, msg⟩ ∧
    handleCreateError .other = ⟨500, "Error creating attorney"⟩ := by
  refine ⟨⟨rfl, rfl⟩, ?_, rfl, rfl⟩
  intro hcode
  have hred : handleCreateError (.known code msg) = ⟨400, "Database error: " ++ msg⟩ := by
    simp only [handleCreateError]
    rw [if_neg hcode]
  rw [hred]
  exact ⟨rfl, "Database error: ".data, rfl⟩

/-- Witness for the amended C7 at the concrete storage error code `P2010`. -/
theorem c7_amended_error_translation_witness :
    (handleCreateError (.known "P2010" "boom")).status = 400 ∧
    List.IsSuffix "boom".data (handleCreateError (.known "P2010" "boom")).message.data :=
  (c7_amended_error_translation "P2010" "boom" "x").2.1 (by decide)

/-- Claim C8: a POST with a name and an email, no `hasLogin` flag, no case
managers, and an email not already registered creates a User with role
`ATTORNEY` and password `""` plus an Attorney row linked to it by
`userId`, inside one transaction, and responds with the attorney and the
nested user object holding that name and email. -/
theorem c8_post_creates_linked_user_attorney (hash : String → String) (db : DB)
    (body : PostBody) (hname : body.name ≠ "") (hemail : body.email ≠ "")
    (hlogin : body.hasLogin = false) (hcms : body.caseManagers = [])
    (hfree : ∀ u ∈ db.users, u.email ≠ body.email) :
    ∃ u : UserRow, ∃ a : AttorneyRow,
      postAttorneys hash db body =
        (.ok a body.name body.email [],
          ⟨u :: db.users, a :: db.attorneys, db.caseManagers, db.nextId + 2⟩) ∧
      u.role = "ATTORNEY" ∧ u.password = "" ∧ u.name = body.name ∧
      u.email = body.email ∧ a.userId = u.id := by
  have hfindnone : (db.users.find? fun u => u.email == body.email) = none :=
    List.find?_eq_none.2 fun u hu => by
      simpa using hfree u hu
  refine ⟨⟨genId db.nextId, body.email, body.name, "ATTORNEY", ""⟩,
    ⟨genId (db.nextId + 1), genId db.nextId, body.phone, body.faxNumber,
      body.address, body.city, body.state, body.zipcode, body.notes, none, none⟩,
    ?_, rfl, rfl, rfl, rfl, rfl⟩
  unfold postAttorneys
  rw [if_neg (by tauto), if_neg (by simp [hlogin]), if_neg (by simp [hfindnone])]
  simp only [hlogin, hcms]
  rfl

/-- Witness for C8: the spec's own example payload
`(name "Jane Doe", email "jane@x.com")` against the sample database. -/
theorem c8_post_creates_linked_user_attorney_witness :
    ∃ u : UserRow, ∃ a : AttorneyRow,
      postAttorneys (fun s => s) sampleDB
          ⟨"Jane Doe", "jane@x.com", "", false, none, none, none, none, none,
            none, none, []⟩ =
        (.ok a "Jane Doe" "jane@x.com" [],
          ⟨u :: sampleDB.users, a :: sampleDB.attorneys, sampleDB.caseManagers,
            sampleDB.nextId + 2⟩) ∧
      u.role = "ATTORNEY" ∧ u.password = "" ∧ u.name = "Jane Doe" ∧
      u.email = "jane@x.com" ∧ a.userId = u.id :=
  c8_post_creates_linked_user_attorney (fun s => s) sampleDB
    ⟨"Jane Doe", "jane@x.com", "", false, none, none, none, none, none,
      none, none, []⟩
    (by decide) (by decide) rfl rfl (by decide)

end AttorneyApi

/-!
### The date branch of handleChange (src/unnamed/part_000, lines 481-519)

For the fields `dateOfBirth`, `doidol` and `orderDate`, `handleChange`
strips non-digits, keeps at most 8 digits, and formats them as
`MM/DD/YYYY` while typing:

* up to 2 digits: the digits verbatim;
* 3 or 4 digits: the first two digits as the month (replaced by `12` if
  they parse above 12) then `/` and the rest;
* 5 or more digits: month (capped at `12`), `/`, day (replaced by `31` if
  the two day digits parse above 31), and `/year` when year digits exist.
-/

/-- JavaScript `>` between a `parseInt` result and a number literal:
`NaN > k` is false. -/
def jsNumGt (o : Option Int) (k : Int) : Bool :=
  match o with
  | some v => decide (k < v)
  | none => false

/-- Formatting applied to the stripped digit run `numbers`
(`value.replace(/\D/g, '').slice(0, 8)`); the body of the date branch. -/
def dateMaskNum (numbers : List Char) : List Char :=
  if numbers.length ≤ 2 then numbers
  else if numbers.length ≤ 4 then
    if jsNumGt (jsParseIntChars (numbers.take 2)) 12 then
      '1' :: '2' :: '/' :: numbers.drop 2
    else numbers.take 2 ++ ('/' :: numbers.drop 2)
  else
    if (numbers.drop 4).take 4 ≠ [] then
      ((if jsNumGt (jsParseIntChars (numbers.take 2)) 12 then ['1', '2']
          else numbers.take 2) ++
        (if jsNumGt (jsParseIntChars ((numbers.drop 2).take 2)) 31 then
          '/' :: ['3', '1'] else '/' :: (numbers.drop 2).take 2)) ++
        ('/' :: (numbers.drop 4).take 4)
    else
      (if jsNumGt (jsParseIntChars (numbers.take 2)) 12 then ['1', '2']
          else numbers.take 2) ++
        (if jsNumGt (jsParseIntChars ((numbers.drop 2).take 2)) 31 then
          '/' :: ['3', '1'] else '/' :: (numbers.drop 2).take 2)

/-- The date branch of `handleChange` for an input field value. -/
def dateMask (value : List Char) : List Char :=
  dateMaskNum ((value.filter Char.isDigit).take 8)

/-- Counterexample to claim C9: the mask does emit month and day
components above the caps. With the four typed digits `0299` the emitted
value is `02/99` — a day component of 99, not replaced by `31` — and with
the two typed digits `13` the emitted value is `13` — a month component of
13, not replaced by `12`. The caps only engage at 3 digits (month) and 5
digits (day). -/
theorem c9_mask_emits_uncapped_components :
    dateMask "0299".data = "02/99".data ∧
    digitsVal ((dateMask "0299".data).drop 3) = 99 ∧
    dateMask "13".data = "13".data ∧
    digitsVal (dateMask "13".data) = 13 := by
  refine ⟨?_, ?_, ?_, ?_⟩ <;> decide

theorem take_two_append {a : List Char} (rest : List Char) (h : a.length = 2) :
    (a ++ rest).take 2 = a := by
  rw [← h, List.take_left]

theorem take_two_double_append {a : List Char} (b c : List Char) (h : a.length = 2) :
    ((a ++ b) ++ c).take 2 = a := by
  rcases List.length_eq_two.1 h with ⟨x, y, rfl⟩
  rfl

theorem drop_three_take_two_mask {a d : List Char} (c : List Char)
    (ha : a.length = 2) (hd : d.length = 2) :
    (((a ++ ('/' :: d)) ++ c).drop 3).take 2 = d := by
  rcases List.length_eq_two.1 ha with ⟨x, y, rfl⟩
  rcases List.length_eq_two.1 hd with ⟨z, w, rfl⟩
  rfl

theorem digitsVal_le_of_not_gt {l : List Char} (k : Nat) (hne : l ≠ [])
    (hdig : ∀ c ∈ l, c.isDigit = true)
    (h : jsNumGt (jsParseIntChars l) (k : Int) = false) : digitsVal l ≤ k := by
  rw [jsParseIntChars_of_digits hne hdig] at h
  simp only [jsNumGt, decide_eq_false_iff_not, not_lt] at h
  exact_mod_cast h

/-- Claim C9 as amended: the mask emits the typed digits verbatim while at
most two digits are present (so a month component above 12 survives
there); once at least three digits are typed the emitted month component
is at most 12 (a larger month is replaced by `12`), and once at least five
digits are typed the emitted day component is at most 31 (a larger day is
replaced by `31`). With three or four digits the day digits are emitted
uncapped. -/
theorem c9_amended_mask_caps (value : List Char) :
    (((value.filter Char.isDigit).take 8).length ≤ 2 →
      dateMask value = (value.filter Char.isDigit).take 8) ∧
    (3 ≤ ((value.filter Char.isDigit).take 8).length →
      digitsVal ((dateMask value).take 2) ≤ 12) ∧
    (5 ≤ ((value.filter Char.isDigit).take 8).length →
      digitsVal (((dateMask value).drop 3).take 2) ≤ 31) := by
  have hdig : ∀ c ∈ (value.filter Char.isDigit).take 8, c.isDigit = true :=
    fun c hc => List.of_mem_filter (List.mem_of_mem_take hc)
  have hmask : dateMask value = dateMaskNum ((value.filter Char.isDigit).take 8) := rfl
  generalize hN : (value.filter Char.isDigit).take 8 = numbers at hdig hmask ⊢
  rw [hmask]
  have hdigM : ∀ c ∈ numbers.take 2, c.isDigit = true :=
    fun c hc => hdig c (List.mem_of_mem_take hc)
  have hdigD : ∀ c ∈ (numbers.drop 2).take 2, c.isDigit = true :=
    fun c hc => hdig c (List.mem_of_mem_drop (List.mem_of_mem_take hc))
  refine ⟨?_, ?_, ?_⟩
  · intro h2
    unfold dateMaskNum
    rw [if_pos h2]
  · intro h3
    have hlenM : (numbers.take 2).length = 2 := by
      rw [List.length_take]; omega
    have hneM : numbers.take 2 ≠ [] := by
      intro hcon
      rw [hcon] at hlenM
      exact absurd hlenM (by decide)
    unfold dateMaskNum
    rw [if_neg (by omega)]
    by_cases h4 : numbers.length ≤ 4
    · rw [if_pos h4]
      by_cases hm : jsNumGt (jsParseIntChars (numbers.take 2)) 12 = true
      · rw [if_pos hm]
        show digitsVal (['1', '2'] : List Char) ≤ 12
        decide
      · rw [if_neg hm, take_two_append _ hlenM]
        exact digitsVal_le_of_not_gt 12 hneM hdigM (Bool.eq_false_iff.2 hm)
    · rw [if_neg h4]
      have hyear : (numbers.drop 4).take 4 ≠ [] := by
        intro hcon
        have := congrArg List.length hcon
        simp only [List.length_take, List.length_drop, List.length_nil] at this
        omega
      rw [if_pos hyear]
      by_cases hm : jsNumGt (jsParseIntChars (numbers.take 2)) 12 = true
      · rw [if_pos hm, take_two_double_append _ _ (by decide)]
        decide
      · rw [if_neg hm, take_two_double_append _ _ hlenM]
        exact digitsVal_le_of_not_gt 12 hneM hdigM (Bool.eq_false_iff.2 hm)
  · intro h5
    have hlenM : (numbers.take 2).length = 2 := by
      rw [List.length_take]; omega
    have hlenD : ((numbers.drop 2).take 2).length = 2 := by
      rw [List.length_take, List.length_drop]; omega
    have hneD : (numbers.drop 2).take 2 ≠ [] := by
      intro hcon
      rw [hcon] at hlenD
      exact absurd hlenD (by decide)
    have hyear : (numbers.drop 4).take 4 ≠ [] := by
      intro hcon
      have := congrArg List.length hcon
      simp only [List.length_take, List.length_drop, List.length_nil] at this
      omega
    unfold dateMaskNum
    rw [if_neg (by omega), if_neg (by omega), if_pos hyear]
    by_cases hd : jsNumGt (jsParseIntChars ((numbers.drop 2).take 2)) 31 = true
    · rw [if_pos hd]
      by_cases hm : jsNumGt (jsParseIntChars (numbers.take 2)) 12 = true
      · rw [if_pos hm, drop_three_take_two_mask _ (by decide) (by decide)]
        decide
      · rw [if_neg hm, drop_three_take_two_mask _ hlenM (by decide)]
        decide
    · rw [if_neg hd]
      by_cases hm : jsNumGt (jsParseIntChars (numbers.take 2)) 12 = true
      · rw [if_pos hm, drop_three_take_two_mask _ (by decide) hlenD]
        exact digitsVal_le_of_not_gt 31 hneD hdigD (Bool.eq_false_iff.2 hd)
      · rw [if_neg hm, drop_three_take_two_mask _ hlenM hlenD]
        exact digitsVal_le_of_not_gt 31 hneD hdigD (Bool.eq_false_iff.2 hd)

/-- Witness for the amended C9: typing `13992024` caps the month to `12`
and the day to `31`, producing `12/31/2024`. -/
theorem c9_amended_mask_caps_witness :
    digitsVal ((dateMask "13992024".data).take 2) ≤ 12 ∧
    digitsVal (((dateMask "13992024".data).drop 3).take 2) ≤ 31 ∧
    dateMask "13992024".data = "12/31/2024".data :=
  ⟨(c9_amended_mask_caps "13992024".data).2.1 (by decide),
    (c9_amended_mask_caps "13992024".data).2.2 (by decide),
    by decide⟩

/-!
### The /api/tasks POST handler (src/unnamed/part_001, lines 41-89)

Translation of:

  const session = await getServerSession(authOptions)
  if (!session?.user) return 401
  const \x7btitle, description, status, priority, dueDate, assignedToId\x7d = body
  if (!title) return 400 "Title is required"
  const task = await prisma.task.create(\x7bdata: \x7btitle, description, status,
    priority, dueDate: dueDate ? new Date(dueDate) : null, assignedToId\x7d\x7d)
  return task
-/

namespace TasksApi

/-- JavaScript truthiness of an optional string field: absent (`none`) and
the empty string are falsy. -/
def jsTruthyStr : Option String → Bool
  | none => false
  | some s => s != ""

/-- An ECMAScript `Date` constructed from a request string. The handler
never inspects or validates the constructed value — an unparseable string
yields an Invalid Date that is passed on to storage as-is — so the model
keeps the source string. -/
structure JsDate where
  source : String
deriving DecidableEq

/-- Body of `POST /api/tasks` as destructured by the handler; `none`
models an absent field. -/
structure TaskBody where
  title : Option String
  description : Option String
  status : Option String
  priority : Option String
  dueDate : Option String
  assignedToId : Option String
deriving DecidableEq

/-- The `data` object handed to `prisma.task.create`. -/
structure TaskCreateData where
  title : Option String
  description : Option String
  status : Option String
  priority : Option String
  dueDate : Option JsDate
  assignedToId : Option String
deriving DecidableEq

/-- Outcome of `POST /api/tasks`: 401 without a session user, 400 when the
title is falsy, otherwise the storage write with the fields passed
through. -/
inductive TasksResult
  | unauthorized
  | badRequest (error : String)
  | created (data : TaskCreateData)
deriving DecidableEq

/-- POST /api/tasks: the only validation is the session check and the
truthiness of `title`; every other field is forwarded to storage
unchecked, with `dueDate` wrapped in `new Date` when truthy and `null`
otherwise. -/
def postTasks (sessionUser : Option Unit) (body : TaskBody) : TasksResult :=
  match sessionUser with
  | none => .unauthorized
  | some _ =>
    if jsTruthyStr body.title = false then .badRequest "Title is required"
    else .created ⟨body.title, body.description, body.status, body.priority,
      if jsTruthyStr body.dueDate = true then some ⟨body.dueDate.getD ""⟩ else none,
      body.assignedToId⟩

/-- Claim C10: an authenticated POST /api/tasks returns the 400 validation
error exactly when the title is absent or empty, and whenever a non-empty
title is present the create call receives every other field
(`description`, `status`, `priority`, `dueDate`, `assignedToId`) passed
through with no presence or format validation — `dueDate` only being
wrapped in an unvalidated `new Date` when truthy. -/
theorem c10_tasks_title_validation (body : TaskBody) :
    (postTasks (some ()) body = .badRequest "Title is required" ↔
      body.title = none ∨ body.title = some "") ∧
    (∀ t : String, body.title = some t → t ≠ "" →
      postTasks (some ()) body =
        .created ⟨some t, body.description, body.status, body.priority,
          if jsTruthyStr body.dueDate = true then some ⟨body.dueDate.getD ""⟩
          else none,
          body.assignedToId⟩) := by
  constructor
  · constructor
    · intro h
      cases htitle : body.title with
      | none => exact Or.inl rfl
      | some t =>
        by_cases ht : t = ""
        · exact Or.inr (by rw [ht])
        · exfalso
          have hfalse : jsTruthyStr body.title = true := by
            rw [htitle]
            simpa [jsTruthyStr] using ht
          unfold postTasks at h
          rw [hfalse] at h
          simp at h
    · intro h
      have hfalsy : jsTruthyStr body.title = false := by
        rcases h with h | h <;> simp [jsTruthyStr, h]
      unfold postTasks
      rw [hfalsy]
      simp
  · intro t htitle ht
    have htruthy : jsTruthyStr body.title = true := by
      rw [htitle]
      simpa [jsTruthyStr] using ht
    unfold postTasks
    rw [htruthy]
    simp [htitle]

/-- Witness for C10: a concrete authenticated request with a title and no
other field returns the created task; one with an empty title returns the
validation error. -/
theorem c10_tasks_title_validation_witness :
    postTasks (some ()) ⟨some "Call payer", none, none, none, some "01/02/2025", none⟩ =
      .created ⟨some "Call payer", none, none, none, some ⟨"01/02/2025"⟩, none⟩ ∧
    postTasks (some ()) ⟨some "", none, none, none, none, none⟩ =
      .badRequest "Title is required" := by
  constructor
  · have h := (c10_tasks_title_validation
      ⟨some "Call payer", none, none, none, some "01/02/2025", none⟩).2
      "Call payer" rfl (by decide)
    simpa using h
  · exact (c10_tasks_title_validation ⟨some "", none, none, none, none, none⟩).1.2
      (Or.inr rfl)

end TasksApi

end Gulfcoast
